import Mathlib

/-!
Verification of the reactive lighting engine of `mqtt-music-viz`.

This file is a shallow embedding of the engine code in `core/state.py`,
`core/devices.py`, `core/colours.py`, `core/mqtt.py` and `core/audio.py`.
Python floats are modelled as exact rationals (`ℚ`), Python strings as
Lean `String` (with character-list helpers for the string-manipulating
colour conversions), Python dicts keyed by device id as association
lists updated in place, and fallible code as `Option`.  External
collaborators (the MQTT client object, the SocketIO handle, the numpy
FFT and the random number generator) are modelled as explicit inputs:
a boolean for "the collaborator object is present", a boolean for "the
broker connection is up", the magnitude spectrum as a list argument and
the random draw as an arbitrary index.
-/

namespace MusicViz

/-- `FreqRange` from `core/devices.py` (also the `{'min': .., 'max': ..}`
dicts carried in `AppState.devices`): a frequency range in Hz. -/
structure FreqRange where
  min : ℚ
  max : ℚ
deriving DecidableEq, Repr

/-- A device dict as held in `AppState.devices` (built in
`AppState.initialize` from `DeviceConfig`, or by the REST routes).
`flash_colour`, `flash_random` and `brightness` are read with
`dict.get` defaults in the source, so they are `Option`s here;
`brightness` is stored by the API routes but never read by the engine. -/
structure Device where
  id : String
  name : String
  topic : String
  type : String
  enabled : Bool
  mode : String
  flash_colour : Option String
  flash_random : Option Bool
  brightness : Option ℤ
  freq_ranges : List FreqRange
deriving DecidableEq, Repr

/-- One value of the `AppState._flash_states` dict:
`{'flash_time': timestamp, 'is_on': bool}`. -/
structure FlashEntry where
  flash_time : ℚ
  is_on : Bool
deriving DecidableEq, Repr

/-- The engine-owned mutable maps of `AppState` (`_last_publish_time`,
`_last_colours`, `_flash_states`) and the `messages_sent` counter,
each dict modelled as an in-order association list with unique keys. -/
structure EngineState where
  lastPublishTime : List (String × ℚ) := []
  lastColours : List (String × String) := []
  flashStates : List (String × FlashEntry) := []
  messagesSent : ℕ := 0
deriving DecidableEq, Repr

/-- The runtime-mutable `AppState.config` fields read by the engine. -/
structure EngineConfig where
  min_publish_interval : ℚ
  beat_threshold : ℚ
  min_volume : ℚ
  flash_duration : ℚ
  debug : Bool
deriving DecidableEq, Repr

/-- The external collaborators the engine talks to: the device registry
snapshot, whether `self.mqtt_manager` is set, whether the MQTT client is
connected (`MQTTManager._connected`), and whether `self._socketio` is set. -/
structure Ctx where
  devices : List Device
  hasMqtt : Bool
  connected : Bool
  hasSocketio : Bool
deriving DecidableEq, Repr

/-- Python dict assignment `m[k] = v` on an association list: replace the
value at the first occurrence of `k`, else append `(k, v)` at the end
(matching dict insertion order). -/
def dictSet {α : Type} (m : List (String × α)) (k : String) (v : α) :
    List (String × α) :=
  match m with
  | [] => [(k, v)]
  | (k', v') :: rest =>
    if k' == k then (k, v) :: rest else (k', v') :: dictSet rest k v

/-- `AppState._frequency_in_ranges` (`core/state.py`): true when the
frequency lies in some range, bounds inclusive. -/
def frequency_in_ranges (freq : ℚ) (ranges : List FreqRange) : Bool :=
  ranges.any fun r => decide (r.min ≤ freq) && decide (freq ≤ r.max)

/-- `Device.should_react_to_frequency` (`core/devices.py`): same loop as
`frequency_in_ranges`, phrased as a method on the device's ranges. -/
def should_react_to_frequency (ranges : List FreqRange) (freq : ℚ) : Bool :=
  ranges.any fun r => decide (r.min ≤ freq) && decide (freq ≤ r.max)

theorem frequency_in_ranges_iff (freq : ℚ) (ranges : List FreqRange) :
    frequency_in_ranges freq ranges = true ↔
      ∃ r ∈ ranges, r.min ≤ freq ∧ freq ≤ r.max := by
  simp [frequency_in_ranges, List.any_eq_true]

theorem frequency_in_ranges_perm (freq : ℚ) {ranges ranges' : List FreqRange}
    (h : ranges.Perm ranges') :
    frequency_in_ranges freq ranges = frequency_in_ranges freq ranges' := by
  simp only [frequency_in_ranges]
  rw [Bool.eq_iff_iff]
  simp only [List.any_eq_true]
  constructor
  · rintro ⟨r, hr, hh⟩
    exact ⟨r, h.mem_iff.1 hr, hh⟩
  · rintro ⟨r, hr, hh⟩
    exact ⟨r, h.mem_iff.2 hr, hh⟩

/-- C4: the eligibility check returns true iff the frequency falls within
at least one of the device's ranges with inclusive bounds, the result does
not depend on the order of the ranges, and the devices.py method agrees
with the state.py helper. -/
theorem eligibility_iff_in_some_range (freq : ℚ) (ranges ranges' : List FreqRange)
    (hperm : ranges.Perm ranges') :
    (should_react_to_frequency ranges freq = true ↔
        ∃ r ∈ ranges, r.min ≤ freq ∧ freq ≤ r.max) ∧
      should_react_to_frequency ranges freq = should_react_to_frequency ranges' freq ∧
      should_react_to_frequency ranges freq = frequency_in_ranges freq ranges := by
  refine ⟨?_, ?_, rfl⟩
  · exact frequency_in_ranges_iff freq ranges
  · exact frequency_in_ranges_perm freq hperm

/-- Witness for C4 at a concrete device range list and its reversal. -/
theorem eligibility_iff_in_some_range_witness :
    ([⟨20, 60⟩, ⟨250, 500⟩] : List FreqRange).Perm [⟨250, 500⟩, ⟨20, 60⟩] ∧
      (should_react_to_frequency [⟨20, 60⟩, ⟨250, 500⟩] 440 = true ↔
        ∃ r ∈ ([⟨20, 60⟩, ⟨250, 500⟩] : List FreqRange),
          r.min ≤ (440 : ℚ) ∧ (440 : ℚ) ≤ r.max) ∧
      should_react_to_frequency [⟨20, 60⟩, ⟨250, 500⟩] 440 =
        should_react_to_frequency [⟨250, 500⟩, ⟨20, 60⟩] 440 := by
  refine ⟨by decide, ?_⟩
  have h := eligibility_iff_in_some_range 440 [⟨20, 60⟩, ⟨250, 500⟩]
    [⟨250, 500⟩, ⟨20, 60⟩] (by decide)
  exact ⟨h.1, h.2.1⟩

/-! ### Character-level helpers for `core/colours.py`

Python strings are modelled as `String` / `List Char`.  `str(n)` for a
natural number, `int(s)` for a plain digit string, `int(s, 16)` for a
hex string and the `f"{p:02x}"` format are embedded below; `int`'s extra
tolerance (signs, surrounding whitespace, underscores) is never exercised
by the engine, which only feeds canonical digit strings, and the embedded
parsers return `none` where `int` would raise `ValueError`. -/

/-- The decimal digit character for `d < 10` (codepoint `48 + d`). -/
def digitChar (d : ℕ) : Char := Char.ofNat (48 + d)

/-- Decimal digits of `n`, most significant first: the embedding of
Python `str(n)` for a natural number. -/
def natDecDigits (n : ℕ) : List Char :=
  if _h : n < 10 then [digitChar n]
  else natDecDigits (n / 10) ++ [digitChar (n % 10)]
decreasing_by exact Nat.div_lt_self (by omega) (by omega)

/-- Value of a decimal digit character, `none` on a non-digit. -/
def decDigitVal (c : Char) : Option ℕ :=
  if c.isDigit then some (c.toNat - 48) else none

/-- Accumulating decimal parser over a character list. -/
def parseDecAux (acc : ℕ) : List Char → Option ℕ
  | [] => some acc
  | c :: rest =>
    match decDigitVal c with
    | some d => parseDecAux (10 * acc + d) rest
    | none => none

/-- The embedding of Python `int(s)` on a canonical digit string:
`none` on the empty string or any non-digit character. -/
def parseDec (l : List Char) : Option ℕ :=
  if l.isEmpty then none else parseDecAux 0 l

/-- The lowercase hex digit character for `d < 16`
(`0`–`9` then `a`–`f`), as produced by the `x` format spec. -/
def hexDigitChar (d : ℕ) : Char :=
  if d < 10 then Char.ofNat (48 + d) else Char.ofNat (87 + d)

/-- Value of a hex digit character (either case), `none` otherwise,
matching `int(c, 16)` on a single character. -/
def hexDigitVal (c : Char) : Option ℕ :=
  if c.isDigit then some (c.toNat - 48)
  else if 'a' ≤ c ∧ c ≤ 'f' then some (c.toNat - 87)
  else if 'A' ≤ c ∧ c ≤ 'F' then some (c.toNat - 55)
  else none

/-- Hex digits of `n`, most significant first. -/
def natHexDigits (n : ℕ) : List Char :=
  if _h : n < 16 then [hexDigitChar n]
  else natHexDigits (n / 16) ++ [hexDigitChar (n % 16)]
decreasing_by exact Nat.div_lt_self (by omega) (by omega)

/-- The embedding of the Python format `f"{p:02x}"`: lowercase hex,
zero-padded on the left to at least two characters. -/
def pyHex02 (n : ℕ) : List Char :=
  let s := natHexDigits n
  List.replicate (2 - s.length) '0' ++ s

/-- Accumulating hex parser over a character list. -/
def parseHexAux (acc : ℕ) : List Char → Option ℕ
  | [] => some acc
  | c :: rest =>
    match hexDigitVal c with
    | some d => parseHexAux (16 * acc + d) rest
    | none => none

/-- The embedding of Python `int(s, 16)` on a plain hex string:
`none` on the empty string or any non-hex-digit character. -/
def parseHex (l : List Char) : Option ℕ :=
  if l.isEmpty then none else parseHexAux 0 l

/-- The embedding of `str.split(",")`. -/
def splitOnComma : List Char → List (List Char)
  | [] => [[]]
  | c :: rest =>
    match splitOnComma rest with
    | [] => [[]]
    | h :: t => if c == ',' then [] :: h :: t else (c :: h) :: t

theorem decDigitVal_digitChar : ∀ d < 10, decDigitVal (digitChar d) = some d := by
  decide

theorem digitChar_ne_comma : ∀ d < 10, digitChar d ≠ ',' := by decide

theorem hexDigitVal_hexDigitChar : ∀ d < 16, hexDigitVal (hexDigitChar d) = some d := by
  decide

theorem hexDigitChar_ne_hash : ∀ d < 16, hexDigitChar d ≠ '#' := by decide

theorem parseDecAux_append (xs ys : List Char) (acc : ℕ) :
    parseDecAux acc (xs ++ ys) =
      (parseDecAux acc xs).bind fun a => parseDecAux a ys := by
  induction xs generalizing acc with
  | nil => simp [parseDecAux]
  | cons c rest ih =>
    simp only [List.cons_append, parseDecAux]
    cases decDigitVal c with
    | none => simp
    | some d => simp [ih]

theorem natDecDigits_ne_nil (n : ℕ) : natDecDigits n ≠ [] := by
  rw [natDecDigits]
  split <;> simp

theorem mem_natDecDigits (n : ℕ) :
    ∀ c ∈ natDecDigits n, ∃ d, d < 10 ∧ c = digitChar d := by
  induction n using Nat.strong_induction_on with
  | _ n ih =>
    rw [natDecDigits]
    split
    · intro c hc
      simp only [List.mem_singleton] at hc
      exact ⟨n, by omega, hc⟩
    · intro c hc
      rcases List.mem_append.1 hc with h | h
      · exact ih (n / 10) (Nat.div_lt_self (by omega) (by omega)) c h
      · simp only [List.mem_singleton] at h
        exact ⟨n % 10, Nat.mod_lt _ (by omega), h⟩

theorem parseDecAux_natDecDigits (n : ℕ) : ∀ acc : ℕ,
    parseDecAux acc (natDecDigits n) =
      some (acc * 10 ^ (natDecDigits n).length + n) := by
  induction n using Nat.strong_induction_on with
  | _ n ih =>
    intro acc
    rw [natDecDigits]
    split
    · simp only [parseDecAux, decDigitVal_digitChar n (by omega)]
      simp
      ring
    · rw [parseDecAux_append]
      rw [ih (n / 10) (Nat.div_lt_self (by omega) (by omega)) acc]
      simp only [Option.some_bind, parseDecAux,
        decDigitVal_digitChar (n % 10) (Nat.mod_lt _ (by omega))]
      simp only [List.length_append, List.length_singleton, Option.some.injEq]
      have h1 : 10 * (n / 10) + n % 10 = n := Nat.div_add_mod n 10
      calc 10 * (acc * 10 ^ (natDecDigits (n / 10)).length + n / 10) + n % 10
          = acc * (10 ^ (natDecDigits (n / 10)).length * 10) +
              (10 * (n / 10) + n % 10) := by ring
        _ = acc * 10 ^ ((natDecDigits (n / 10)).length + 1) + n := by
              rw [h1, pow_succ]

theorem parseDec_natDecDigits (n : ℕ) : parseDec (natDecDigits n) = some n := by
  rw [parseDec, if_neg (by simp [natDecDigits_ne_nil n]),
    parseDecAux_natDecDigits n 0]
  simp

theorem splitOnComma_ne_nil (l : List Char) : splitOnComma l ≠ [] := by
  induction l with
  | nil => simp [splitOnComma]
  | cons c rest ih =>
    simp only [splitOnComma]
    rcases hs : splitOnComma rest with _ | ⟨hd, tl⟩
    · simp
    · by_cases hc : c = ',' <;> simp [hc]

theorem splitOnComma_no_comma (l : List Char) (h : ∀ c ∈ l, c ≠ ',') :
    splitOnComma l = [l] := by
  induction l with
  | nil => rfl
  | cons c rest ih =>
    have hc : (c == ',') = false := by
      simpa using h c (List.mem_cons_self c rest)
    rw [splitOnComma, ih fun x hx => h x (List.mem_cons_of_mem _ hx), hc]
    simp

theorem splitOnComma_append (a b : List Char) (ha : ∀ c ∈ a, c ≠ ',') :
    splitOnComma (a ++ ',' :: b) = a :: splitOnComma b := by
  induction a with
  | nil =>
    simp only [List.nil_append, splitOnComma]
    cases hs : splitOnComma b with
    | nil => exact absurd hs (splitOnComma_ne_nil b)
    | cons hd tl => simp
  | cons c rest ih =>
    have hc : (c == ',') = false := by
      simpa using ha c (List.mem_cons_self c rest)
    rw [List.cons_append, splitOnComma,
      ih fun x hx => ha x (List.mem_cons_of_mem _ hx), hc]
    simp

theorem natHexDigits_lt16 (n : ℕ) (h : n < 16) :
    natHexDigits n = [hexDigitChar n] := by
  rw [natHexDigits]
  simp [h]

theorem pyHex02_eq (n : ℕ) (h : n < 256) :
    pyHex02 n = [hexDigitChar (n / 16), hexDigitChar (n % 16)] := by
  by_cases h16 : n < 16
  · have hd : n / 16 = 0 := Nat.div_eq_of_lt h16
    have hm : n % 16 = n := Nat.mod_eq_of_lt h16
    rw [pyHex02, natHexDigits_lt16 n h16, hd, hm]
    rfl
  · have hdl : n / 16 < 16 := by omega
    rw [pyHex02, natHexDigits, dif_neg h16, natHexDigits_lt16 _ hdl]
    rfl

theorem parseHex_two (a b : ℕ) (ha : a < 16) (hb : b < 16) :
    parseHex [hexDigitChar a, hexDigitChar b] = some (16 * a + b) := by
  simp [parseHex, parseHexAux, hexDigitVal_hexDigitChar a ha,
    hexDigitVal_hexDigitChar b hb]

theorem parseHex_pyHex02 (n : ℕ) (h : n < 256) :
    parseHex (pyHex02 n) = some n := by
  rw [pyHex02_eq n h, parseHex_two _ _ (by omega) (Nat.mod_lt _ (by omega))]
  congr 1
  omega

/-- An entry of `COLOUR_PALETTE` in `core/colours.py`:
`{"colour": name, "value": "r,g,b"}`. -/
structure PaletteEntry where
  colour : String
  value : String
deriving DecidableEq, Repr

/-- The dict returned by `random_colour`:
`{'name', 'rgb', 'hex', 'value'}`. -/
structure ColourResult where
  name : String
  rgb : String
  hex : String
  value : String
deriving DecidableEq, Repr

/-- The fixed module-level palette of `core/colours.py`. -/
def COLOUR_PALETTE : List PaletteEntry :=
  [⟨"dark red", "174,0,0"⟩,
   ⟨"red", "255,0,0"⟩,
   ⟨"orange-red", "255,102,0"⟩,
   ⟨"yellow", "255,239,0"⟩,
   ⟨"chartreuse", "153,255,0"⟩,
   ⟨"lime", "40,255,0"⟩,
   ⟨"aqua", "0,255,242"⟩,
   ⟨"sky blue", "0,122,255"⟩,
   ⟨"blue", "5,0,255"⟩,
   ⟨"blue", "71,0,237"⟩,
   ⟨"indigo", "99,0,178"⟩]

/-- The comprehension `[int(p) for p in parts]`: `none` as soon as one
part would make `int` raise. -/

def parseParts : List (List Char) → Option (List ℕ)
  | [] => some []
  | p :: rest =>
    match parseDec p, parseParts rest with
    | some n, some ns => some (n :: ns)
    | _, _ => none

/-- `rgb_to_hex` (`core/colours.py`):
`parts = [int(p) for p in rgb.split(",")]` then
`"#" + "".join(f"{p:02x}" for p in parts)`; `none` where `int` raises. -/
def rgb_to_hex (rgb : String) : Option String :=
  (parseParts (splitOnComma rgb.toList)).map fun parts =>
    String.mk ('#' :: (parts.map pyHex02).flatten)

/-- `hex_to_rgb` (`core/colours.py`): `h = hexstr.lstrip("#")` then
`",".join(str(int(h[i:i+2], 16)) for i in (0, 2, 4))`;
`none` where `int` raises (an empty or malformed two-character slice). -/
def hex_to_rgb (hexstr : String) : Option String :=
  let h := (hexstr.toList).dropWhile (· == '#')
  match parseHex ((h.drop 0).take 2), parseHex ((h.drop 2).take 2),
      parseHex ((h.drop 4).take 2) with
  | some r, some g, some b =>
    some (String.mk (natDecDigits r ++ ',' :: natDecDigits g ++ ',' ::
      natDecDigits b))
  | _, _, _ => none

/-- `random_colour` (`core/colours.py`).  The module-level
`COLOUR_PALETTE` it reads is passed explicitly, the uniform draw of
`random.choice` is modelled by an arbitrary index `rng` reduced mod the
candidate count, and `COLOUR_PALETTE[0]` (the fallback when every entry
is excluded) is the head of the passed palette. -/
def random_colour (palette : List PaletteEntry) (exclude_value : Option String)
    (rng : ℕ) : ColourResult :=
  let candidates := palette.filter fun c => some c.value != exclude_value
  let chosen :=
    if candidates.isEmpty then palette.headD ⟨"", ""⟩
    else candidates.getD (rng % candidates.length) ⟨"", ""⟩
  { name := chosen.colour, rgb := chosen.value,
    hex := (rgb_to_hex chosen.value).getD "", value := chosen.value }

/-- The canonical `"r,g,b"` string for three numeric components, as
produced by Python `f"{r},{g},{b}"` / `",".join` on `str` of each. -/
def rgbTriple (r g b : ℕ) : String :=
  String.mk (natDecDigits r ++ ',' :: natDecDigits g ++ ',' :: natDecDigits b)

theorem mem_natDecDigits_ne_comma (n : ℕ) :
    ∀ c ∈ natDecDigits n, c ≠ ',' := by
  intro c hc
  obtain ⟨d, hd, rfl⟩ := mem_natDecDigits n c hc
  exact digitChar_ne_comma d hd

theorem splitOnComma_rgbTriple (r g b : ℕ) :
    splitOnComma (rgbTriple r g b).toList =
      [natDecDigits r, natDecDigits g, natDecDigits b] := by
  have h1 : (rgbTriple r g b).toList =
      natDecDigits r ++ ',' :: (natDecDigits g ++ ',' :: natDecDigits b) := by
    simp [rgbTriple]
  rw [h1, splitOnComma_append _ _ (mem_natDecDigits_ne_comma r),
    splitOnComma_append _ _ (mem_natDecDigits_ne_comma g),
    splitOnComma_no_comma _ (mem_natDecDigits_ne_comma b)]

theorem rgb_to_hex_rgbTriple (r g b : ℕ) :
    rgb_to_hex (rgbTriple r g b) =
      some (String.mk ('#' :: (pyHex02 r ++ (pyHex02 g ++ (pyHex02 b ++ []))))) := by
  rw [rgb_to_hex, splitOnComma_rgbTriple]
  simp [parseParts, parseDec_natDecDigits]

theorem string_toList_mk (l : List Char) : (String.mk l).toList = l := rfl

theorem hex_to_rgb_explicit (x1 x2 y1 y2 z1 z2 : ℕ) (h1 : x1 < 16)
    (h2 : x2 < 16) (h3 : y1 < 16) (h4 : y2 < 16) (h5 : z1 < 16) (h6 : z2 < 16) :
    hex_to_rgb (String.mk ('#' :: [hexDigitChar x1, hexDigitChar x2,
        hexDigitChar y1, hexDigitChar y2, hexDigitChar z1, hexDigitChar z2])) =
      some (String.mk (natDecDigits (16 * x1 + x2) ++ ',' ::
        natDecDigits (16 * y1 + y2) ++ ',' :: natDecDigits (16 * z1 + z2))) := by
  have e0 : (('#' : Char) == '#') = true := by decide
  have e1 : (hexDigitChar x1 == '#') = false :=
    beq_eq_false_iff_ne.mpr (hexDigitChar_ne_hash x1 h1)
  simp only [hex_to_rgb, string_toList_mk, List.dropWhile_cons, e0, e1,
    if_true, if_false, List.drop, List.take]
  rw [parseHex_two x1 x2 h1 h2, parseHex_two y1 y2 h3 h4,
    parseHex_two z1 z2 h5 h6]

/-- C9: for every valid `"r,g,b"` triple with components at most 255,
`rgb_to_hex` produces the lowercase, `#`-prefixed, two-hex-digit-per-channel
string (each channel rendered by `pyHex02`, the `f"{p:02x}"` format), and
`hex_to_rgb` maps that string back to the original triple. -/
theorem rgb_hex_round_trip (r g b : ℕ) (hr : r ≤ 255) (hg : g ≤ 255)
    (hb : b ≤ 255) :
    rgb_to_hex (rgbTriple r g b) =
        some (String.mk ('#' :: (pyHex02 r ++ (pyHex02 g ++ (pyHex02 b ++ []))))) ∧
      (rgb_to_hex (rgbTriple r g b)).bind hex_to_rgb = some (rgbTriple r g b) := by
  have hr' : r < 256 := by omega
  have hg' : g < 256 := by omega
  have hb' : b < 256 := by omega
  refine ⟨rgb_to_hex_rgbTriple r g b, ?_⟩
  rw [rgb_to_hex_rgbTriple r g b, Option.some_bind, pyHex02_eq r hr',
    pyHex02_eq g hg', pyHex02_eq b hb']
  have := hex_to_rgb_explicit (r / 16) (r % 16) (g / 16) (g % 16) (b / 16) (b % 16)
    (by omega) (Nat.mod_lt _ (by omega)) (by omega) (Nat.mod_lt _ (by omega))
    (by omega) (Nat.mod_lt _ (by omega))
  rw [show ('#' :: ([hexDigitChar (r / 16), hexDigitChar (r % 16)] ++
      ([hexDigitChar (g / 16), hexDigitChar (g % 16)] ++
        ([hexDigitChar (b / 16), hexDigitChar (b % 16)] ++ [])))) =
      '#' :: [hexDigitChar (r / 16), hexDigitChar (r % 16),
        hexDigitChar (g / 16), hexDigitChar (g % 16),
        hexDigitChar (b / 16), hexDigitChar (b % 16)] from by simp, this]
  rw [Nat.div_add_mod r 16, Nat.div_add_mod g 16, Nat.div_add_mod b 16]
  rfl

/-- Witness for C9 at the palette triple `"174,0,0"`. -/
theorem rgb_hex_round_trip_witness :
    (174 : ℕ) ≤ 255 ∧ (0 : ℕ) ≤ 255 ∧
      (rgb_to_hex (rgbTriple 174 0 0)).bind hex_to_rgb =
        some (rgbTriple 174 0 0) :=
  ⟨by decide, by decide,
    (rgb_hex_round_trip 174 0 0 (by decide) (by decide) (by decide)).2⟩

/-- C8: with more than one palette entry, pairwise-distinct values and the
excluded value present in the palette, `random_colour` never returns the
excluded value, whatever the random draw (so in particular it repeats no
more often than any retry bound allows); with a single-entry palette it
returns the sole entry regardless of the exclusion. -/
theorem colour_selector_spec :
    (∀ (palette : List PaletteEntry) (excl : String) (rng : ℕ),
        1 < palette.length →
        (palette.map PaletteEntry.value).Nodup →
        excl ∈ palette.map PaletteEntry.value →
        (random_colour palette (some excl) rng).rgb ≠ excl) ∧
      ∀ (c : PaletteEntry) (excl : Option String) (rng : ℕ),
        (random_colour [c] excl rng).rgb = c.value ∧
          (random_colour [c] excl rng).name = c.colour := by
  constructor
  · intro palette excl rng hlen hnodup _hmem
    have hex : ∃ c ∈ palette, c.value ≠ excl := by
      by_contra hall
      push_neg at hall
      match palette, hlen with
      | p0 :: p1 :: rest, _ =>
        have h0 : p0.value = excl := hall p0 (by simp)
        have h1 : p1.value = excl := hall p1 (by simp)
        simp only [List.map_cons, List.nodup_cons, List.mem_cons,
          List.mem_map] at hnodup
        exact hnodup.1 (Or.inl (h0.trans h1.symm))
    obtain ⟨c, hc, hcv⟩ := hex
    have hcand : c ∈ palette.filter fun c => some c.value != some excl := by
      refine List.mem_filter.mpr ⟨hc, ?_⟩
      simp [hcv]
    set candidates := palette.filter fun c => some c.value != some excl with hcands
    have hne : candidates ≠ [] := List.ne_nil_of_mem hcand
    have hpos : 0 < candidates.length := List.length_pos.mpr hne
    have hempty : candidates.isEmpty = false := by
      simpa [List.isEmpty_iff] using hne
    have hchosen : candidates.getD (rng % candidates.length) ⟨"", ""⟩ ∈ candidates := by
      rw [List.getD_eq_getElem _ _ (Nat.mod_lt _ hpos)]
      exact List.getElem_mem _
    simp only [random_colour, ← hcands, hempty, Bool.false_eq_true, if_false]
    have := (List.mem_filter.mp hchosen).2
    simpa using this
  · intro c excl rng
    by_cases h : some c.value = excl
    · have : ([c].filter fun d => some d.value != excl) = [] := by
        simp [List.filter, h]
      simp [random_colour, this]
    · have hb : (some c.value != excl) = true := bne_iff_ne.mpr h
      have : ([c].filter fun d => some d.value != excl) = [c] := by
        simp [List.filter, hb]
      simp [random_colour, this, Nat.mod_one]

/-- Witness for C8: the real palette with `"255,0,0"` excluded, and a
singleton palette whose sole entry is also the excluded value. -/
theorem colour_selector_spec_witness :
    1 < COLOUR_PALETTE.length ∧
      (COLOUR_PALETTE.map PaletteEntry.value).Nodup ∧
      "255,0,0" ∈ COLOUR_PALETTE.map PaletteEntry.value ∧
      (random_colour COLOUR_PALETTE (some "255,0,0") 1).rgb ≠ "255,0,0" ∧
      (random_colour [⟨"red", "255,0,0"⟩] (some "255,0,0") 3).rgb = "255,0,0" := by
  refine ⟨by decide, by decide, by decide, ?_, ?_⟩
  · exact colour_selector_spec.1 COLOUR_PALETTE "255,0,0" 1 (by decide)
      (by decide) (by decide)
  · exact (colour_selector_spec.2 ⟨"red", "255,0,0"⟩ (some "255,0,0") 3).1

/-! ### `core/devices.py` payloads and `core/mqtt.py` publishing -/

/-- Python `round` (banker's rounding, half to even) on a rational. -/
def pyRound (q : ℚ) : ℤ :=
  let f := ⌊q⌋
  if q - f < 1 / 2 then f
  else if 1 / 2 < q - f then f + 1
  else if f % 2 = 0 then f else f + 1

/-- The MQTT message string built by `get_device_config`, by its data
content: the Tasmota command strings and the `json.dumps` dicts are
external formatting of exactly these constructors' fields (the constant
dict fields — `transition: 0.0001`, `color_temp: "500"`, `CT 500`,
`Fade 0`, `Speed 1` — are fixed per constructor). -/
inductive Payload where
  | tasmotaOff : Payload
  | tasmotaWhite (dimmer : ℤ) : Payload
  | tasmotaColour (dimmer : ℤ) (colour : String) : Payload
  | zigbeeOff : Payload
  | zigbeeWhite (brightness : ℤ) : Payload
  | zigbeeColour (brightness : ℤ) (colour : String) : Payload
  | unknownOff : Payload
deriving DecidableEq, Repr

/-- `get_device_config` (`core/devices.py`): builds the MQTT payload for
a device type and colour.  `brightness` defaults to 255 and is clamped to
`[1, 255]` (the `int(brightness)` conversion cannot fail on an integer);
`turn_off` defaults to false. -/
def get_device_config (device_type : String) (colour : String)
    (brightness : ℤ := 255) (turn_off : Bool := false) : Payload :=
  let brightness_value : ℤ := max 1 (min 255 brightness)
  if device_type == "tasmota" then
    let tasmota_dimmer : ℤ :=
      max 1 (min 100 (pyRound ((brightness_value : ℚ) / 255 * 100)))
    if turn_off then .tasmotaOff
    else if colour == "white" then .tasmotaWhite tasmota_dimmer
    else .tasmotaColour tasmota_dimmer colour
  else if device_type == "zigbee" then
    if turn_off then .zigbeeOff
    else if colour == "white" then .zigbeeWhite brightness_value
    else .zigbeeColour brightness_value colour
  else .unknownOff

/-- One message handed to `client.publish` in `publish_device_state`. -/
structure Publish where
  topic : String
  payload : Payload
  qos : ℕ
  retain : Bool
deriving DecidableEq, Repr

/-- `MQTTManager.publish_device_state` (`core/mqtt.py`): when not
connected (or no client), nothing is published and `False` is returned;
otherwise the message goes out with `qos = 2 if turn_off else 0`,
`retain=False`, and the call reports success.  The list of messages
actually handed to the client is returned alongside the result.
`turn_off` defaults to false, exactly as in the source signature. -/
def publish_device_state (connected : Bool) (topic : String)
    (payload : Payload) (turn_off : Bool := false) : List Publish × Bool :=
  if connected then
    ([{ topic := topic, payload := payload,
        qos := if turn_off then 2 else 0, retain := false }], true)
  else ([], false)

/-- The `next((d for d in self.devices if d['id'] == device_id), None)`
lookup used by the flash sweep. -/
def findDevice (devices : List Device) (device_id : String) : Option Device :=
  devices.find? fun d => d.id == device_id

/-- A `socketio.emit` event sent by the engine: the three
`'device_state'` payload shapes of `core/state.py` (flash-timeout off,
flash on, reactive on). -/
inductive Notif where
  | deviceOff (device_id : String) : Notif
  | deviceFlash (device_id device_name state colour hex : String)
      (pitch volume : ℚ) : Notif
  | deviceOn (device_id device_name state colour hex name : String)
      (pitch volume : ℚ) : Notif
deriving DecidableEq, Repr

/-- `AppState._check_flash_timeouts` (`core/state.py`): walk the
`_flash_states` items; for each entry that `is_on` longer than
`flash_duration`, look the device up in the registry and, when both the
device and the MQTT manager exist, publish its off payload (note:
`turn_off` is *not* passed to `publish_device_state`, so it keeps its
default `False`), clear `is_on`, and emit a `device_state: off` event
when SocketIO is attached.  Returns the updated map, the published
messages and the emitted events, in iteration order. -/
def check_flash_timeouts (ctx : Ctx) (flash_duration current_time : ℚ) :
    List (String × FlashEntry) →
      List (String × FlashEntry) × List Publish × List Notif
  | [] => ([], [], [])
  | (device_id, st) :: rest =>
    let (rest', pubs, notifs) := check_flash_timeouts ctx flash_duration current_time rest
    if st.is_on && decide (current_time - st.flash_time > flash_duration) then
      match findDevice ctx.devices device_id with
      | some device =>
        if ctx.hasMqtt then
          let payload := get_device_config device.type "" 255 true
          let sent := (publish_device_state ctx.connected device.topic payload).1
          ((device_id, { st with is_on := false }) :: rest',
           sent ++ pubs,
           (if ctx.hasSocketio then [Notif.deviceOff device_id] else []) ++ notifs)
        else ((device_id, st) :: rest', pubs, notifs)
      | none => ((device_id, st) :: rest', pubs, notifs)
    else ((device_id, st) :: rest', pubs, notifs)

/-- Guard under which one `_flash_states` entry fires in the sweep:
it is on, it has been on for longer than `flash_duration`, its device is
still in the registry, and the MQTT manager exists. -/
def sweepFires (ctx : Ctx) (flash_duration current_time : ℚ)
    (e : String × FlashEntry) : Bool :=
  e.2.is_on && decide (current_time - e.2.flash_time > flash_duration) &&
    (findDevice ctx.devices e.1).isSome && ctx.hasMqtt

/-- The sweep, entry by entry: each fired entry is cleared, publishes its
device's off payload (when connected) and emits one off event (when
SocketIO is attached); every other entry is untouched. -/
theorem check_flash_timeouts_eq (ctx : Ctx) (dur now : ℚ)
    (fs : List (String × FlashEntry)) :
    check_flash_timeouts ctx dur now fs =
      (fs.map fun e =>
        if sweepFires ctx dur now e then (e.1, ⟨e.2.flash_time, false⟩) else e,
       fs.filterMap fun e =>
         match findDevice ctx.devices e.1 with
         | some d =>
           if sweepFires ctx dur now e && ctx.connected then
             some ⟨d.topic, get_device_config d.type "" 255 true, 0, false⟩
           else none
         | none => none,
       fs.filterMap fun e =>
         if sweepFires ctx dur now e && ctx.hasSocketio then
           some (Notif.deviceOff e.1)
         else none) := by
  induction fs with
  | nil => rfl
  | cons e rest ih =>
    obtain ⟨device_id, st⟩ := e
    simp only [check_flash_timeouts, ih, List.map_cons, List.filterMap_cons]
    by_cases hg : (st.is_on && decide (now - st.flash_time > dur)) = true
    · rw [if_pos hg]
      cases hfind : findDevice ctx.devices device_id with
      | none =>
        have hf : sweepFires ctx dur now (device_id, st) = false := by
          simp [sweepFires, hfind]
        simp [hf, hfind]
      | some d =>
        by_cases hm : ctx.hasMqtt = true
        · have hf : sweepFires ctx dur now (device_id, st) = true := by
            simp [sweepFires, hfind, hm, Bool.and_eq_true] at hg ⊢
            exact ⟨hg.1, hg.2⟩
          simp only [hm, if_true, hfind, hf, Bool.true_and]
          cases hconn : ctx.connected <;> cases hs : ctx.hasSocketio <;>
            simp [publish_device_state, hf]
        · have hm' : ctx.hasMqtt = false := by
            cases h : ctx.hasMqtt
            · rfl
            · exact absurd h hm
          have hf : sweepFires ctx dur now (device_id, st) = false := by
            simp [sweepFires, hm']
          simp [hf, hm', hfind]
    · have hf : sweepFires ctx dur now (device_id, st) = false := by
        simp only [sweepFires]
        cases h1 : st.is_on <;>
          cases h2 : decide (now - st.flash_time > dur) <;> simp_all
      rw [if_neg hg]
      cases hfind : findDevice ctx.devices device_id <;> simp [hf, hfind]

theorem mem_of_lookup_eq_some {β : Type} {fs : List (String × β)} {id : String}
    {v : β} (h : fs.lookup id = some v) : (id, v) ∈ fs := by
  induction fs with
  | nil => simp [List.lookup] at h
  | cons e rest ih =>
    obtain ⟨k, w⟩ := e
    rw [List.lookup] at h
    by_cases hk : (id == k) = true
    · have hid : id = k := by simpa using hk
      subst hid
      have hwv : w = v := by simpa using h
      subst hwv
      exact List.mem_cons_self _ _
    · have hkf : (id == k) = false := by simpa using hk
      rw [hkf] at h
      exact List.mem_cons_of_mem _ (ih h)

theorem sweep_lookup (ctx : Ctx) (dur now : ℚ) (fs : List (String × FlashEntry))
    (id : String) :
    (check_flash_timeouts ctx dur now fs).1.lookup id =
      (fs.lookup id).map fun st =>
        if sweepFires ctx dur now (id, st) then ⟨st.flash_time, false⟩ else st := by
  rw [check_flash_timeouts_eq]
  induction fs with
  | nil => rfl
  | cons e rest ih =>
    obtain ⟨k, v⟩ := e
    simp only [List.map_cons]
    by_cases hk : (id == k) = true
    · have hid : id = k := by simpa using hk
      subst hid
      by_cases hf : sweepFires ctx dur now (id, v) = true
      · rw [if_pos hf]
        simp [List.lookup, hf]
      · rw [if_neg hf]
        simp [List.lookup, hf]
    · have hkf : (id == k) = false := by simpa using hk
      by_cases hf : sweepFires ctx dur now (k, v) = true
      · rw [if_pos hf, List.lookup, List.lookup, hkf]
        exact ih
      · rw [if_neg hf, List.lookup, List.lookup, hkf]
        exact ih

theorem count_deviceOff_zero (ctx : Ctx) (dur now : ℚ)
    (fs : List (String × FlashEntry)) (id : String)
    (h : id ∉ fs.map Prod.fst) :
    ((fs.filterMap fun e =>
        if sweepFires ctx dur now e && ctx.hasSocketio then
          some (Notif.deviceOff e.1)
        else none).count (Notif.deviceOff id)) = 0 := by
  induction fs with
  | nil => rfl
  | cons e rest ih =>
    obtain ⟨k, v⟩ := e
    simp only [List.map_cons, List.mem_cons, not_or] at h
    obtain ⟨hne, hrest⟩ := h
    simp only [List.filterMap_cons]
    by_cases hemit : (sweepFires ctx dur now (k, v) && ctx.hasSocketio) = true
    · rw [if_pos hemit]
      rw [List.count_cons]
      simp only [ih hrest]
      simp [Ne.symm hne]
    · rw [if_neg hemit]
      exact ih hrest

theorem sweep_count_deviceOff (ctx : Ctx) (dur now : ℚ)
    (fs : List (String × FlashEntry)) (id : String)
    (hnodup : (fs.map Prod.fst).Nodup) :
    (check_flash_timeouts ctx dur now fs).2.2.count (Notif.deviceOff id) =
      match fs.lookup id with
      | some st =>
        if sweepFires ctx dur now (id, st) && ctx.hasSocketio then 1 else 0
      | none => 0 := by
  rw [check_flash_timeouts_eq]
  induction fs with
  | nil => rfl
  | cons e rest ih =>
    obtain ⟨k, v⟩ := e
    simp only [List.map_cons, List.nodup_cons] at hnodup
    obtain ⟨hknot, hrest⟩ := hnodup
    simp only [List.filterMap_cons]
    by_cases hk : (id == k) = true
    · have hid : id = k := by simpa using hk
      subst hid
      have hz := count_deviceOff_zero ctx dur now rest id hknot
      by_cases hemit : (sweepFires ctx dur now (id, v) && ctx.hasSocketio) = true
      · rw [if_pos hemit, List.count_cons]
        simp_all [List.lookup]
      · rw [if_neg hemit]
        simp only [show List.lookup id ((id, v) :: rest) = some v from by
          simp [List.lookup], if_neg hemit]
        exact hz
    · have hkf : (id == k) = false := by simpa using hk
      have hne : id ≠ k := by simpa using hkf
      rw [List.lookup, hkf]
      by_cases hemit : (sweepFires ctx dur now (k, v) && ctx.hasSocketio) = true
      · rw [if_pos hemit, List.count_cons]
        have hih := ih hrest
        simp_all [Notif.deviceOff.injEq, Ne.symm hne]
      · rw [if_neg hemit]
        exact ih hrest

theorem sweep_keys (ctx : Ctx) (dur now : ℚ) (fs : List (String × FlashEntry)) :
    (check_flash_timeouts ctx dur now fs).1.map Prod.fst = fs.map Prod.fst := by
  rw [check_flash_timeouts_eq]
  simp only [List.map_map]
  refine List.map_congr_left fun e _he => ?_
  by_cases hf : sweepFires ctx dur now e = true
  · simp [hf]
  · simp [eq_false_of_ne_true hf]

theorem sweep_pub_mem (ctx : Ctx) (dur now : ℚ) (fs : List (String × FlashEntry))
    (id : String) (st₀ : FlashEntry) (dev : Device)
    (hlook : fs.lookup id = some st₀)
    (hdev : findDevice ctx.devices id = some dev)
    (hfires : sweepFires ctx dur now (id, st₀) = true)
    (hconn : ctx.connected = true) :
    (⟨dev.topic, get_device_config dev.type "" 255 true, 0, false⟩ : Publish) ∈
      (check_flash_timeouts ctx dur now fs).2.1 := by
  rw [check_flash_timeouts_eq]
  refine List.mem_filterMap.mpr ⟨(id, st₀), mem_of_lookup_eq_some hlook, ?_⟩
  simp [hdev, hfires, hconn]

/-- C1: for a device whose flash state was recorded on at time `t` (with
the device in the registry, the MQTT manager present, the broker
connected and SocketIO attached): a sweep at `now` with
`now - t > flash_duration` publishes the device's off payload to its
topic, sets `is_on` to false, and emits exactly one
`{device_id, state: "off"}` event, after which any further sweep emits no
off event for that device (so the off command is issued exactly once);
and a sweep with `now - t ≤ flash_duration` leaves the entry untouched
and emits no off event for that device. -/
theorem flash_timeout_off_spec (ctx : Ctx) (dev : Device)
    (fs : List (String × FlashEntry)) (dur t now : ℚ) (id : String)
    (hm : ctx.hasMqtt = true) (hc : ctx.connected = true)
    (hs : ctx.hasSocketio = true)
    (hdev : findDevice ctx.devices id = some dev)
    (hnodup : (fs.map Prod.fst).Nodup)
    (hlook : fs.lookup id = some ⟨t, true⟩) :
    (dur < now - t →
      (check_flash_timeouts ctx dur now fs).1.lookup id = some ⟨t, false⟩ ∧
        (⟨dev.topic, get_device_config dev.type "" 255 true, 0, false⟩ : Publish) ∈
          (check_flash_timeouts ctx dur now fs).2.1 ∧
        (check_flash_timeouts ctx dur now fs).2.2.count (Notif.deviceOff id) = 1 ∧
        ∀ now2 : ℚ,
          (check_flash_timeouts ctx dur now2
              (check_flash_timeouts ctx dur now fs).1).2.2.count
            (Notif.deviceOff id) = 0) ∧
      (now - t ≤ dur →
        (check_flash_timeouts ctx dur now fs).1.lookup id = some ⟨t, true⟩ ∧
          (check_flash_timeouts ctx dur now fs).2.2.count
            (Notif.deviceOff id) = 0) := by
  constructor
  · intro hlt
    have hfires : sweepFires ctx dur now (id, ⟨t, true⟩) = true := by
      simp [sweepFires, hdev, hm, hlt]
    have hlook1 : (check_flash_timeouts ctx dur now fs).1.lookup id =
        some ⟨t, false⟩ := by
      rw [sweep_lookup, hlook]
      simp [hfires]
    refine ⟨hlook1, sweep_pub_mem ctx dur now fs id ⟨t, true⟩ dev hlook hdev
      hfires hc, ?_, ?_⟩
    · rw [sweep_count_deviceOff ctx dur now fs id hnodup, hlook]
      simp [hfires, hs]
    · intro now2
      have hnodup1 : ((check_flash_timeouts ctx dur now fs).1.map Prod.fst).Nodup := by
        rw [sweep_keys]
        exact hnodup
      rw [sweep_count_deviceOff ctx dur now2 _ id hnodup1, hlook1]
      simp [sweepFires]
  · intro hle
    have hfires : sweepFires ctx dur now (id, ⟨t, true⟩) = false := by
      simp [sweepFires, hdev, hm]
      linarith
    constructor
    · rw [sweep_lookup, hlook]
      simp [hfires]
    · rw [sweep_count_deviceOff ctx dur now fs id hnodup, hlook]
      simp [hfires]

/-- Witness for C1: one zigbee device flashed at `t = 0` with
`flash_duration = 0.3`; the expiring sweep runs at `now = 0.31` and the
non-expiring one would have run at `now = 0.25`. -/
theorem flash_timeout_off_spec_witness :
    (3 / 10 : ℚ) < 31 / 100 - 0 ∧
      (check_flash_timeouts
          ⟨[⟨"d1", "TV Light", "zigbee2mqtt/tv/set", "zigbee", true, "flash",
             some "255,0,0", some false, none, [⟨20, 20000⟩]⟩],
            true, true, true⟩
          (3 / 10) (31 / 100) [("d1", ⟨0, true⟩)]).1.lookup "d1" =
        some ⟨0, false⟩ ∧
      (⟨"zigbee2mqtt/tv/set", get_device_config "zigbee" "" 255 true, 0,
          false⟩ : Publish) ∈
        (check_flash_timeouts
          ⟨[⟨"d1", "TV Light", "zigbee2mqtt/tv/set", "zigbee", true, "flash",
             some "255,0,0", some false, none, [⟨20, 20000⟩]⟩],
            true, true, true⟩
          (3 / 10) (31 / 100) [("d1", ⟨0, true⟩)]).2.1 ∧
      (check_flash_timeouts
          ⟨[⟨"d1", "TV Light", "zigbee2mqtt/tv/set", "zigbee", true, "flash",
             some "255,0,0", some false, none, [⟨20, 20000⟩]⟩],
            true, true, true⟩
          (3 / 10) (31 / 100) [("d1", ⟨0, true⟩)]).2.2.count
        (Notif.deviceOff "d1") = 1 := by
  have h := flash_timeout_off_spec
    ⟨[⟨"d1", "TV Light", "zigbee2mqtt/tv/set", "zigbee", true, "flash",
       some "255,0,0", some false, none, [⟨20, 20000⟩]⟩], true, true, true⟩
    ⟨"d1", "TV Light", "zigbee2mqtt/tv/set", "zigbee", true, "flash",
      some "255,0,0", some false, none, [⟨20, 20000⟩]⟩
    [("d1", ⟨0, true⟩)] (3 / 10) 0 (31 / 100) "d1"
    rfl rfl rfl (by decide) (by decide) (by decide)
  have h1 := h.1 (by norm_num)
  exact ⟨by norm_num, h1.1, h1.2.1, h1.2.2.1⟩

/-- C2 (failing input): the flash-timeout sweep builds the off payload
with `turn_off=True` but calls `publish_device_state` without passing
`turn_off`, so the off command is published at QoS 0, while
`publish_device_state` itself grants QoS 2 ≥ 1 only when asked
(`turn_off=True`) — as `core/mqtt.py`'s own comment says off commands
should be. -/
theorem flash_off_published_at_qos_zero :
    (check_flash_timeouts
        ⟨[⟨"d1", "TV Light", "zigbee2mqtt/tv/set", "zigbee", true, "flash",
           some "255,0,0", some false, none, [⟨20, 20000⟩]⟩],
          true, true, true⟩
        (3 / 10) 1 [("d1", ⟨0, true⟩)]).2.1 =
      [⟨"zigbee2mqtt/tv/set", Payload.zigbeeOff, 0, false⟩] ∧
      (∀ p ∈ (check_flash_timeouts
          ⟨[⟨"d1", "TV Light", "zigbee2mqtt/tv/set", "zigbee", true, "flash",
             some "255,0,0", some false, none, [⟨20, 20000⟩]⟩],
            true, true, true⟩
          (3 / 10) 1 [("d1", ⟨0, true⟩)]).2.1, ¬ 1 ≤ p.qos) ∧
      (publish_device_state true "zigbee2mqtt/tv/set" Payload.zigbeeOff
          true).1 =
        [⟨"zigbee2mqtt/tv/set", Payload.zigbeeOff, 2, false⟩] := by
  have hgt : (3 / 10 : ℚ) < 1 - 0 := by norm_num
  have hfind : findDevice
      [⟨"d1", "TV Light", "zigbee2mqtt/tv/set", "zigbee", true, "flash",
        some "255,0,0", some false, none, [⟨20, 20000⟩]⟩] "d1" =
      some ⟨"d1", "TV Light", "zigbee2mqtt/tv/set", "zigbee", true, "flash",
        some "255,0,0", some false, none, [⟨20, 20000⟩]⟩ := rfl
  have hfires : sweepFires
      ⟨[⟨"d1", "TV Light", "zigbee2mqtt/tv/set", "zigbee", true, "flash",
         some "255,0,0", some false, none, [⟨20, 20000⟩]⟩],
        true, true, true⟩ (3 / 10) 1 ("d1", ⟨0, true⟩) = true := by
    simp [sweepFires, hfind]
    norm_num
  have hpay : get_device_config "zigbee" "" 255 true = Payload.zigbeeOff := rfl
  have h1 : (check_flash_timeouts
      ⟨[⟨"d1", "TV Light", "zigbee2mqtt/tv/set", "zigbee", true, "flash",
         some "255,0,0", some false, none, [⟨20, 20000⟩]⟩],
        true, true, true⟩
      (3 / 10) 1 [("d1", ⟨0, true⟩)]).2.1 =
      [⟨"zigbee2mqtt/tv/set", Payload.zigbeeOff, 0, false⟩] := by
    rw [check_flash_timeouts_eq]
    simp [hfind, hfires, hpay]
  refine ⟨h1, ?_, rfl⟩
  rw [h1]
  simp

/-! ### The per-device dispatch path of `core/state.py` -/

/-- Python `str.strip()`: drop whitespace from both ends. -/
def pyStrip (l : List Char) : List Char :=
  ((l.dropWhile Char.isWhitespace).reverse.dropWhile Char.isWhitespace).reverse

/-- `AppState._rgb_to_hex` (`core/state.py`): strip each comma-separated
part, parse it, and format the first three as `#rrggbb`; `none` where the
Python code would raise (bad part or fewer than three parts). -/
def rgb_to_hex_state (rgb_str : String) : Option String :=
  (parseParts ((splitOnComma rgb_str.toList).map pyStrip)).bind fun parts =>
    match parts with
    | p0 :: p1 :: p2 :: _ =>
      some (String.mk ('#' :: (pyHex02 p0 ++ pyHex02 p1 ++ pyHex02 p2)))
    | _ => none

/-- `AppState._handle_flash_mode` (`core/state.py`): pick the colour
(random with anti-repeat when `flash_random`, recording it immediately in
`_last_colours`; otherwise the configured `flash_colour`, default
`'255,255,255'`, with no anti-repeat), publish the on payload — note that
`get_device_config` is called without a brightness argument, so the
payload always carries the default brightness 255 — record
`_flash_states[id] = {flash_time: now, is_on: True}`, and emit the
`state: 'flash'` event. -/
def handle_flash_mode (ctx : Ctx) (device : Device)
    (frequency volume current_time : ℚ) (rng : ℕ) (st : EngineState) :
    EngineState × List Publish × List Notif :=
  let picked :=
    if device.flash_random.getD false then
      let colour_obj :=
        random_colour COLOUR_PALETTE (st.lastColours.lookup device.id) rng
      (colour_obj.rgb, colour_obj.name,
       { st with lastColours := dictSet st.lastColours device.id colour_obj.rgb })
    else (device.flash_colour.getD "255,255,255", "FLASH", st)
  let colour := picked.1
  let st1 := picked.2.2
  let pubs :=
    if ctx.hasMqtt then
      (publish_device_state ctx.connected device.topic
        (get_device_config device.type colour)).1
    else []
  let st2 :=
    { st1 with flashStates := dictSet st1.flashStates device.id ⟨current_time, true⟩ }
  let notifs :=
    if ctx.hasSocketio then
      [Notif.deviceFlash device.id device.name "flash" colour
        ((rgb_to_hex_state colour).getD "") frequency volume]
    else []
  (st2, pubs, notifs)

/-- `AppState._handle_reactive_mode` (`core/state.py`): always pick a
random colour excluding the device's last one, publish the on payload
(again without a brightness argument), emit the `state: 'on'` event, then
record the colour in `_last_colours`. -/
def handle_reactive_mode (ctx : Ctx) (device : Device)
    (frequency volume _current_time : ℚ) (rng : ℕ) (st : EngineState) :
    EngineState × List Publish × List Notif :=
  let colour := random_colour COLOUR_PALETTE (st.lastColours.lookup device.id) rng
  let pubs :=
    if ctx.hasMqtt then
      (publish_device_state ctx.connected device.topic
        (get_device_config device.type colour.rgb)).1
    else []
  let notifs :=
    if ctx.hasSocketio then
      [Notif.deviceOn device.id device.name "on" colour.rgb colour.hex
        colour.name frequency volume]
    else []
  ({ st with lastColours := dictSet st.lastColours device.id colour.rgb },
   pubs, notifs)

/-- `AppState._process_device_beat` (`core/state.py`): skip unless the
frequency matches; seed `_last_publish_time[id] = 0` when absent; skip
when `now - _last_publish_time[id] < min_publish_interval`; otherwise run
the mode handler, bump `messages_sent` and set
`_last_publish_time[id] = now` — unconditionally, whatever the publish
returned. -/
def process_device_beat (ctx : Ctx) (cfg : EngineConfig) (device : Device)
    (frequency volume current_time : ℚ) (rng : ℕ) (st : EngineState) :
    EngineState × List Publish × List Notif :=
  if ¬ frequency_in_ranges frequency device.freq_ranges then (st, [], [])
  else
    let st1 :=
      if (st.lastPublishTime.lookup device.id).isNone then
        { st with lastPublishTime := dictSet st.lastPublishTime device.id 0 }
      else st
    if current_time - ((st1.lastPublishTime.lookup device.id).getD 0) <
        cfg.min_publish_interval then
      (st1, [], [])
    else
      let hb :=
        if device.mode == "flash" then
          handle_flash_mode ctx device frequency volume current_time rng st1
        else
          handle_reactive_mode ctx device frequency volume current_time rng st1
      ({ hb.1 with
          messagesSent := hb.1.messagesSent + 1
          lastPublishTime := dictSet hb.1.lastPublishTime device.id current_time },
       hb.2.1, hb.2.2)

theorem lookup_dictSet {α : Type} (m : List (String × α)) (k : String) (v : α) :
    (dictSet m k v).lookup k = some v := by
  induction m with
  | nil => simp [dictSet, List.lookup]
  | cons e rest ih =>
    obtain ⟨k', v'⟩ := e
    by_cases h : (k' == k) = true
    · rw [dictSet, if_pos h]
      simp [List.lookup]
    · rw [dictSet, if_neg h]
      have hne : (k == k') = false := by
        rw [beq_eq_false_iff_ne]
        intro he
        exact h (by simp [he])
      rw [List.lookup, hne]
      exact ih

theorem lookup_dictSet_ne {α : Type} (m : List (String × α)) (k k' : String)
    (v : α) (h : k' ≠ k) : (dictSet m k v).lookup k' = m.lookup k' := by
  have hne : (k' == k) = false := beq_eq_false_iff_ne.mpr h
  induction m with
  | nil => simp [dictSet, List.lookup, hne]
  | cons e rest ih =>
    obtain ⟨k0, v0⟩ := e
    by_cases h0 : (k0 == k) = true
    · rw [dictSet, if_pos h0]
      have hk0 : k0 = k := by simpa using h0
      subst hk0
      rw [List.lookup, List.lookup, hne]
    · rw [dictSet, if_neg h0]
      rw [List.lookup, List.lookup]
      cases hkk : k' == k0 with
      | true => rfl
      | false => exact ih

theorem process_not_eligible (ctx : Ctx) (cfg : EngineConfig) (device : Device)
    (f v t : ℚ) (rng : ℕ) (st : EngineState)
    (h : frequency_in_ranges f device.freq_ranges = false) :
    process_device_beat ctx cfg device f v t rng st = (st, [], []) := by
  simp [process_device_beat, h]

theorem st1_lookup_getD (st : EngineState) (id : String) :
    (((if (st.lastPublishTime.lookup id).isNone then
        { st with lastPublishTime := dictSet st.lastPublishTime id 0 }
      else st) : EngineState).lastPublishTime.lookup id).getD 0 =
      (st.lastPublishTime.lookup id).getD 0 := by
  cases hlk : st.lastPublishTime.lookup id with
  | none => simp [hlk, lookup_dictSet]
  | some tl => simp [hlk]

theorem process_rate_limited (ctx : Ctx) (cfg : EngineConfig) (device : Device)
    (f v t : ℚ) (rng : ℕ) (st : EngineState) (tl : ℚ)
    (hf : frequency_in_ranges f device.freq_ranges = true)
    (hl : st.lastPublishTime.lookup device.id = some tl)
    (h : t - tl < cfg.min_publish_interval) :
    process_device_beat ctx cfg device f v t rng st = (st, [], []) := by
  simp [process_device_beat, hf, hl, h]

theorem st1_lastColours (st : EngineState) (id : String) :
    (((if (st.lastPublishTime.lookup id).isNone then
        { st with lastPublishTime := dictSet st.lastPublishTime id 0 }
      else st) : EngineState)).lastColours = st.lastColours := by
  split <;> rfl

theorem st1_flashStates (st : EngineState) (id : String) :
    (((if (st.lastPublishTime.lookup id).isNone then
        { st with lastPublishTime := dictSet st.lastPublishTime id 0 }
      else st) : EngineState)).flashStates = st.flashStates := by
  split <;> rfl

theorem st1_lastPublishTime_ne (st : EngineState) (id id' : String)
    (h : id' ≠ id) :
    (((if (st.lastPublishTime.lookup id).isNone then
        { st with lastPublishTime := dictSet st.lastPublishTime id 0 }
      else st) : EngineState)).lastPublishTime.lookup id' =
      st.lastPublishTime.lookup id' := by
  split
  · exact lookup_dictSet_ne _ _ _ _ h
  · rfl

theorem process_dispatch_eq (ctx : Ctx) (cfg : EngineConfig) (device : Device)
    (f v t : ℚ) (rng : ℕ) (st : EngineState)
    (hf : frequency_in_ranges f device.freq_ranges = true)
    (hg : ¬ (t - (st.lastPublishTime.lookup device.id).getD 0 <
        cfg.min_publish_interval)) :
    process_device_beat ctx cfg device f v t rng st =
      (let st1 :=
        if (st.lastPublishTime.lookup device.id).isNone then
          { st with lastPublishTime := dictSet st.lastPublishTime device.id 0 }
        else st
       let hb :=
        if device.mode == "flash" then
          handle_flash_mode ctx device f v t rng st1
        else
          handle_reactive_mode ctx device f v t rng st1
       ({ hb.1 with
           messagesSent := hb.1.messagesSent + 1
           lastPublishTime := dictSet hb.1.lastPublishTime device.id t },
        hb.2.1, hb.2.2)) := by
  simp only [process_device_beat, hf, not_true_eq_false, Bool.false_eq_true,
    if_false, st1_lookup_getD]
  rw [if_neg hg]

theorem process_dispatch_lookup (ctx : Ctx) (cfg : EngineConfig)
    (device : Device) (f v t : ℚ) (rng : ℕ) (st : EngineState)
    (hf : frequency_in_ranges f device.freq_ranges = true)
    (hg : ¬ (t - (st.lastPublishTime.lookup device.id).getD 0 <
        cfg.min_publish_interval)) :
    (process_device_beat ctx cfg device f v t rng
        st).1.lastPublishTime.lookup device.id = some t := by
  simp only [process_device_beat, hf, not_true_eq_false, Bool.false_eq_true,
    if_false, st1_lookup_getD, hg]
  simp [lookup_dictSet]

theorem process_skip_cases (ctx : Ctx) (cfg : EngineConfig) (device : Device)
    (f v t : ℚ) (rng : ℕ) (st : EngineState)
    (h : (process_device_beat ctx cfg device f v t rng st).2.1 ≠ []) :
    frequency_in_ranges f device.freq_ranges = true ∧
      ¬ (t - (st.lastPublishTime.lookup device.id).getD 0 <
        cfg.min_publish_interval) := by
  by_cases hf : frequency_in_ranges f device.freq_ranges = true
  · refine ⟨hf, fun hg => h ?_⟩
    simp only [process_device_beat, hf, not_true_eq_false, Bool.false_eq_true,
      if_false, st1_lookup_getD, hg, if_true]
  · exact absurd (congrArg (fun r => r.2.1)
      (process_not_eligible ctx cfg device f v t rng st
        (eq_false_of_ne_true hf))) h

theorem process_pubs_lookup (ctx : Ctx) (cfg : EngineConfig) (device : Device)
    (f v t : ℚ) (rng : ℕ) (st : EngineState)
    (h : (process_device_beat ctx cfg device f v t rng st).2.1 ≠ []) :
    (process_device_beat ctx cfg device f v t rng
        st).1.lastPublishTime.lookup device.id = some t := by
  obtain ⟨hf, hg⟩ := process_skip_cases ctx cfg device f v t rng st h
  exact process_dispatch_lookup ctx cfg device f v t rng st hf hg

/-- C3: for a fixed device and configuration, two dispatch evaluations
whose times satisfy `t2 - t1 < min_publish_interval` produce at most one
publish for the device (if the first published, the second is skipped by
the rate limiter); and the first-ever evaluation for a device compares
against a last-publish time of 0, so when the frequency matches and
`min_publish_interval ≤ t1` (wall-clock time, always true in practice)
the very first action is not delayed. -/
theorem rate_limit_at_most_one (ctx : Ctx) (cfg : EngineConfig)
    (device : Device) (f1 f2 v1 v2 t1 t2 : ℚ) (rng1 rng2 : ℕ)
    (st : EngineState) :
    (t2 - t1 < cfg.min_publish_interval →
      (process_device_beat ctx cfg device f1 v1 t1 rng1 st).2.1 = [] ∨
        (process_device_beat ctx cfg device f2 v2 t2 rng2
          (process_device_beat ctx cfg device f1 v1 t1 rng1 st).1).2.1 = []) ∧
      (frequency_in_ranges f1 device.freq_ranges = true →
        st.lastPublishTime.lookup device.id = none →
        cfg.min_publish_interval ≤ t1 →
        (process_device_beat ctx cfg device f1 v1 t1 rng1
            st).1.lastPublishTime.lookup device.id = some t1) := by
  constructor
  · intro hint
    by_cases hp1 : (process_device_beat ctx cfg device f1 v1 t1 rng1 st).2.1 = []
    · exact Or.inl hp1
    · right
      have hlk := process_pubs_lookup ctx cfg device f1 v1 t1 rng1 st hp1
      by_cases hf2 : frequency_in_ranges f2 device.freq_ranges = true
      · exact congrArg (fun r => r.2.1)
          (process_rate_limited ctx cfg device f2 v2 t2 rng2 _ t1 hf2 hlk hint)
      · exact congrArg (fun r => r.2.1)
          (process_not_eligible ctx cfg device f2 v2 t2 rng2 _
            (eq_false_of_ne_true hf2))
  · intro hf1 hnone ht
    refine process_dispatch_lookup ctx cfg device f1 v1 t1 rng1 st hf1 ?_
    rw [hnone]
    simpa using not_lt.mpr ht

/-- Witness for C3: a reactive device, beats at `t1 = 1` and `t2 = 1.05`
with `min_publish_interval = 0.1`, starting from the empty engine state. -/
theorem rate_limit_at_most_one_witness :
    ((21 / 20 : ℚ) - 1 < 1 / 10 ∧
      ((process_device_beat ⟨[], true, true, true⟩ ⟨1 / 10, 1 / 100, 1 / 200, 3 / 10, false⟩
          ⟨"d1", "TV Light", "zigbee2mqtt/tv/set", "zigbee", true, "reactive",
            some "255,0,0", some false, none, [⟨20, 20000⟩]⟩
          100 1 1 5 ⟨[], [], [], 0⟩).2.1 = [] ∨
        (process_device_beat ⟨[], true, true, true⟩ ⟨1 / 10, 1 / 100, 1 / 200, 3 / 10, false⟩
          ⟨"d1", "TV Light", "zigbee2mqtt/tv/set", "zigbee", true, "reactive",
            some "255,0,0", some false, none, [⟨20, 20000⟩]⟩
          100 1 (21 / 20) 6
          (process_device_beat ⟨[], true, true, true⟩ ⟨1 / 10, 1 / 100, 1 / 200, 3 / 10, false⟩
            ⟨"d1", "TV Light", "zigbee2mqtt/tv/set", "zigbee", true, "reactive",
              some "255,0,0", some false, none, [⟨20, 20000⟩]⟩
            100 1 1 5 ⟨[], [], [], 0⟩).1).2.1 = [])) ∧
      (frequency_in_ranges 100 [⟨20, 20000⟩] = true ∧
        (1 / 10 : ℚ) ≤ 1 ∧
        (process_device_beat ⟨[], true, true, true⟩ ⟨1 / 10, 1 / 100, 1 / 200, 3 / 10, false⟩
          ⟨"d1", "TV Light", "zigbee2mqtt/tv/set", "zigbee", true, "reactive",
            some "255,0,0", some false, none, [⟨20, 20000⟩]⟩
          100 1 1 5 ⟨[], [], [], 0⟩).1.lastPublishTime.lookup "d1" = some 1) := by
  have h := rate_limit_at_most_one ⟨[], true, true, true⟩
    ⟨1 / 10, 1 / 100, 1 / 200, 3 / 10, false⟩
    ⟨"d1", "TV Light", "zigbee2mqtt/tv/set", "zigbee", true, "reactive",
      some "255,0,0", some false, none, [⟨20, 20000⟩]⟩
    100 100 1 1 1 (21 / 20) 5 6 ⟨[], [], [], 0⟩
  refine ⟨⟨by norm_num, h.1 (by norm_num)⟩, by decide, by norm_num, ?_⟩
  exact h.2 (by decide) rfl (by norm_num)

/-- C7 (counterexample): a flash-mode zigbee device configured with
brightness 155 still gets its flash "on" command published with
brightness 255, because `_handle_flash_mode` calls `get_device_config`
without passing the device's brightness, so the default 255 applies. -/
theorem flash_brightness_counterexample :
    (handle_flash_mode ⟨[], true, true, false⟩
        ⟨"d1", "TV Light", "zigbee2mqtt/tv/set", "zigbee", true, "flash",
          some "255,0,0", some false, some 155, [⟨20, 20000⟩]⟩
        100 1 1 0 ⟨[], [], [], 0⟩).2.1 =
      [⟨"zigbee2mqtt/tv/set", Payload.zigbeeColour 255 "255,0,0", 0, false⟩] ∧
      (⟨"d1", "TV Light", "zigbee2mqtt/tv/set", "zigbee", true, "flash",
        some "255,0,0", some false, some 155, [⟨20, 20000⟩]⟩ : Device).brightness =
        some 155 ∧
      (255 : ℤ) ≠ 155 := by
  refine ⟨rfl, rfl, by decide⟩

/-- C7 (amended): in flash mode, when `flash_random` is set the colour is
picked by the Colour Selector excluding the device's last colour and
recorded as the new last colour; otherwise the configured `flash_colour`
is used unconditionally with no anti-repeat and the colour history is
untouched; the published "on" command always carries brightness 255 (the
payload builder's default — the device's configured brightness is never
passed); and `_flash_states[id]` is recorded as
`{flash_time: now, is_on: true}`. -/
theorem flash_mode_spec (ctx : Ctx) (device : Device) (f v t : ℚ) (rng : ℕ)
    (st : EngineState) (hm : ctx.hasMqtt = true) (hc : ctx.connected = true) :
    (handle_flash_mode ctx device f v t rng st).1.flashStates.lookup device.id =
        some ⟨t, true⟩ ∧
      (device.flash_random.getD false = true →
        (handle_flash_mode ctx device f v t rng st).2.1 =
          [⟨device.topic,
            get_device_config device.type
              (random_colour COLOUR_PALETTE
                (st.lastColours.lookup device.id) rng).rgb 255 false,
            0, false⟩] ∧
          (handle_flash_mode ctx device f v t rng st).1.lastColours.lookup
              device.id =
            some (random_colour COLOUR_PALETTE
              (st.lastColours.lookup device.id) rng).rgb) ∧
      (device.flash_random.getD false = false →
        (handle_flash_mode ctx device f v t rng st).2.1 =
          [⟨device.topic,
            get_device_config device.type
              (device.flash_colour.getD "255,255,255") 255 false,
            0, false⟩] ∧
          (handle_flash_mode ctx device f v t rng st).1.lastColours =
            st.lastColours) := by
  refine ⟨?_, ?_, ?_⟩
  · by_cases hr : device.flash_random.getD false = true
    · simp [handle_flash_mode, hr, lookup_dictSet]
    · simp [handle_flash_mode, eq_false_of_ne_true hr, lookup_dictSet]
  · intro hr
    simp [handle_flash_mode, hr, hm, hc, publish_device_state, lookup_dictSet]
  · intro hr
    simp [handle_flash_mode, hr, hm, hc, publish_device_state]

/-- Witness for C7 (amended) at a non-random flash device. -/
theorem flash_mode_spec_witness :
    (handle_flash_mode ⟨[], true, true, false⟩
        ⟨"d1", "TV Light", "zigbee2mqtt/tv/set", "zigbee", true, "flash",
          some "255,0,0", some false, some 155, [⟨20, 20000⟩]⟩
        100 1 2 3 ⟨[], [], [], 0⟩).1.flashStates.lookup "d1" = some ⟨2, true⟩ ∧
      (handle_flash_mode ⟨[], true, true, false⟩
        ⟨"d1", "TV Light", "zigbee2mqtt/tv/set", "zigbee", true, "flash",
          some "255,0,0", some false, some 155, [⟨20, 20000⟩]⟩
        100 1 2 3 ⟨[], [], [], 0⟩).2.1 =
        [⟨"zigbee2mqtt/tv/set", get_device_config "zigbee" "255,0,0" 255 false,
          0, false⟩] := by
  have h := flash_mode_spec ⟨[], true, true, false⟩
    ⟨"d1", "TV Light", "zigbee2mqtt/tv/set", "zigbee", true, "flash",
      some "255,0,0", some false, some 155, [⟨20, 20000⟩]⟩
    100 1 2 3 ⟨[], [], [], 0⟩ rfl rfl
  exact ⟨h.1, (h.2.2 rfl).1⟩

theorem handle_flash_mode_state (ctx : Ctx) (device : Device) (f v t : ℚ)
    (rng : ℕ) (st : EngineState) :
    (handle_flash_mode ctx device f v t rng st).1.lastPublishTime =
        st.lastPublishTime ∧
      ((handle_flash_mode ctx device f v t rng st).1.lastColours =
          st.lastColours ∨
        (handle_flash_mode ctx device f v t rng st).1.lastColours =
          dictSet st.lastColours device.id
            (random_colour COLOUR_PALETTE
              (st.lastColours.lookup device.id) rng).rgb) ∧
      (handle_flash_mode ctx device f v t rng st).1.flashStates =
        dictSet st.flashStates device.id ⟨t, true⟩ := by
  by_cases hr : device.flash_random.getD false = true
  · simp [handle_flash_mode, hr]
  · simp [handle_flash_mode, eq_false_of_ne_true hr]

theorem handle_reactive_mode_state (ctx : Ctx) (device : Device) (f v t : ℚ)
    (rng : ℕ) (st : EngineState) :
    (handle_reactive_mode ctx device f v t rng st).1.lastPublishTime =
        st.lastPublishTime ∧
      (handle_reactive_mode ctx device f v t rng st).1.lastColours =
        dictSet st.lastColours device.id
          (random_colour COLOUR_PALETTE
            (st.lastColours.lookup device.id) rng).rgb ∧
      (handle_reactive_mode ctx device f v t rng st).1.flashStates =
        st.flashStates := by
  refine ⟨rfl, rfl, rfl⟩

/-- C10 (counterexample): with the broker disconnected the publish fails
(`publish_device_state` returns `False` and nothing is sent), yet
`_process_device_beat` still sets `_last_publish_time[id]` to the beat
time, so the failed publish is *not* left to be retried by the next beat
within the rate-limit window — contradicting "RateLimitState[id] is set
… on successful dispatch — and only then". -/
theorem state_updated_despite_failed_publish :
    publish_device_state false "zigbee2mqtt/tv/set"
        (get_device_config "zigbee" "255,0,0") = ([], false) ∧
      (process_device_beat ⟨[], true, false, false⟩
          ⟨1 / 10, 1 / 100, 1 / 200, 3 / 10, false⟩
          ⟨"d1", "TV Light", "zigbee2mqtt/tv/set", "zigbee", true, "flash",
            some "255,0,0", some false, none, [⟨20, 20000⟩]⟩
          100 1 1 7 ⟨[], [], [], 0⟩).2.1 = [] ∧
      (process_device_beat ⟨[], true, false, false⟩
          ⟨1 / 10, 1 / 100, 1 / 200, 3 / 10, false⟩
          ⟨"d1", "TV Light", "zigbee2mqtt/tv/set", "zigbee", true, "flash",
            some "255,0,0", some false, none, [⟨20, 20000⟩]⟩
          100 1 1 7 ⟨[], [], [], 0⟩).1.lastPublishTime.lookup "d1" = some 1 := by
  have hf : frequency_in_ranges 100 [(⟨20, 20000⟩ : FreqRange)] = true := by
    decide
  have hg : ¬ ((1 : ℚ) -
      ((([] : List (String × ℚ)).lookup "d1").getD 0) <
        (1 / 10 : ℚ)) := by
    simp [List.lookup]
    norm_num
  refine ⟨rfl, ?_, ?_⟩
  · simp only [process_device_beat, hf, not_true_eq_false, Bool.false_eq_true,
      if_false]
    norm_num [List.lookup, dictSet, handle_flash_mode, publish_device_state]
  · exact process_dispatch_lookup ⟨[], true, false, false⟩
      ⟨1 / 10, 1 / 100, 1 / 200, 3 / 10, false⟩
      ⟨"d1", "TV Light", "zigbee2mqtt/tv/set", "zigbee", true, "flash",
        some "255,0,0", some false, none, [⟨20, 20000⟩]⟩
      100 1 1 7 ⟨[], [], [], 0⟩ hf hg

/-- C10 (amended): once the dispatch path reaches the mode handler
(frequency matched, rate limit passed), `RateLimitState[id]` is set to
the beat time and — in reactive mode — `ColourHistory[id]` is set to the
chosen colour, in both cases whether or not the publish succeeds (the
engine ignores `publish_device_state`'s result, so a failed publish still
counts for rate limiting); the resulting engine state is identical for a
connected and a disconnected broker; and a dispatch for one device never
alters another device's rate-limit, colour-history or flash-state
entries. -/
theorem dispatch_state_update_spec (ctx : Ctx) (cfg : EngineConfig)
    (device : Device) (f v t : ℚ) (rng : ℕ) (st : EngineState) (b2 : Bool)
    (hf : frequency_in_ranges f device.freq_ranges = true)
    (hg : ¬ (t - (st.lastPublishTime.lookup device.id).getD 0 <
        cfg.min_publish_interval)) :
    (process_device_beat ctx cfg device f v t rng
        st).1.lastPublishTime.lookup device.id = some t ∧
      ((device.mode == "flash") = false →
        (process_device_beat ctx cfg device f v t rng
            st).1.lastColours.lookup device.id =
          some (random_colour COLOUR_PALETTE
            (st.lastColours.lookup device.id) rng).rgb) ∧
      (process_device_beat ctx cfg device f v t rng st).1 =
        (process_device_beat { ctx with connected := b2 } cfg device f v t rng
          st).1 ∧
      ∀ id', id' ≠ device.id →
        (process_device_beat ctx cfg device f v t rng
            st).1.lastPublishTime.lookup id' =
          st.lastPublishTime.lookup id' ∧
        (process_device_beat ctx cfg device f v t rng
            st).1.lastColours.lookup id' =
          st.lastColours.lookup id' ∧
        (process_device_beat ctx cfg device f v t rng
            st).1.flashStates.lookup id' =
          st.flashStates.lookup id' := by
  have heq := process_dispatch_eq ctx cfg device f v t rng st hf hg
  have heq2 := process_dispatch_eq { ctx with connected := b2 } cfg device
    f v t rng st hf hg
  refine ⟨process_dispatch_lookup ctx cfg device f v t rng st hf hg, ?_, ?_, ?_⟩
  · intro hmode
    rw [heq]
    dsimp only
    simp only [hmode, Bool.false_eq_true, if_false]
    rw [(handle_reactive_mode_state ctx device f v t rng _).2.1,
      st1_lastColours]
    exact lookup_dictSet _ _ _
  · rw [heq, heq2]
    dsimp only
    by_cases hmode : (device.mode == "flash") = true
    · simp only [hmode, if_true]
      rfl
    · simp only [hmode, Bool.false_eq_true, if_false]
      rfl
  · intro id' hne
    rw [heq]
    dsimp only
    by_cases hmode : (device.mode == "flash") = true
    · simp only [hmode, if_true]
      obtain ⟨hlp, hlc, hfs⟩ := handle_flash_mode_state ctx device f v t rng
        (if (st.lastPublishTime.lookup device.id).isNone then
          { st with lastPublishTime := dictSet st.lastPublishTime device.id 0 }
        else st)
      refine ⟨?_, ?_, ?_⟩
      · rw [lookup_dictSet_ne _ _ _ _ hne, hlp,
          st1_lastPublishTime_ne st device.id id' hne]
      · rcases hlc with hlc | hlc
        · rw [hlc, st1_lastColours]
        · rw [hlc, lookup_dictSet_ne _ _ _ _ hne, st1_lastColours]
      · rw [hfs, lookup_dictSet_ne _ _ _ _ hne, st1_flashStates]
    · simp only [hmode, Bool.false_eq_true, if_false]
      obtain ⟨hlp, hlc, hfs⟩ := handle_reactive_mode_state ctx device f v t rng
        (if (st.lastPublishTime.lookup device.id).isNone then
          { st with lastPublishTime := dictSet st.lastPublishTime device.id 0 }
        else st)
      refine ⟨?_, ?_, ?_⟩
      · rw [lookup_dictSet_ne _ _ _ _ hne, hlp,
          st1_lastPublishTime_ne st device.id id' hne]
      · rw [hlc, lookup_dictSet_ne _ _ _ _ hne, st1_lastColours]
      · rw [hfs, st1_flashStates]

/-- Witness for C10 (amended): a reactive device dispatching at `t = 1`
from the empty state, compared between a connected and a disconnected
broker. -/
theorem dispatch_state_update_spec_witness :
    frequency_in_ranges 100 [(⟨20, 20000⟩ : FreqRange)] = true ∧
      (process_device_beat ⟨[], true, true, true⟩
          ⟨1 / 10, 1 / 100, 1 / 200, 3 / 10, false⟩
          ⟨"d1", "TV Light", "zigbee2mqtt/tv/set", "zigbee", true, "reactive",
            some "255,0,0", some false, none, [⟨20, 20000⟩]⟩
          100 1 1 7 ⟨[], [], [], 0⟩).1.lastPublishTime.lookup "d1" = some 1 ∧
      (process_device_beat ⟨[], true, true, true⟩
          ⟨1 / 10, 1 / 100, 1 / 200, 3 / 10, false⟩
          ⟨"d1", "TV Light", "zigbee2mqtt/tv/set", "zigbee", true, "reactive",
            some "255,0,0", some false, none, [⟨20, 20000⟩]⟩
          100 1 1 7 ⟨[], [], [], 0⟩).1 =
        (process_device_beat ⟨[], true, false, true⟩
          ⟨1 / 10, 1 / 100, 1 / 200, 3 / 10, false⟩
          ⟨"d1", "TV Light", "zigbee2mqtt/tv/set", "zigbee", true, "reactive",
            some "255,0,0", some false, none, [⟨20, 20000⟩]⟩
          100 1 1 7 ⟨[], [], [], 0⟩).1 := by
  have hg : ¬ ((1 : ℚ) -
      ((([] : List (String × ℚ)).lookup "d1").getD 0) < (1 / 10 : ℚ)) := by
    simp [List.lookup]
    norm_num
  have h := dispatch_state_update_spec ⟨[], true, true, true⟩
    ⟨1 / 10, 1 / 100, 1 / 200, 3 / 10, false⟩
    ⟨"d1", "TV Light", "zigbee2mqtt/tv/set", "zigbee", true, "reactive",
      some "255,0,0", some false, none, [⟨20, 20000⟩]⟩
    100 1 1 7 ⟨[], [], [], 0⟩ false (by decide) hg
  exact ⟨by decide, h.1, h.2.2.1⟩

/-! ### `core/audio.py`: the silence gate and the fallback detector -/

/-- The frame energy `np.sum(samples ** 2) / len(samples)` — the mean
squared amplitude, computed this way both for `volume` in the audio
callback and for `energy` in the fallback detector. -/
def audioVolume (samples : List ℚ) : ℚ :=
  (samples.map fun s => s * s).sum / samples.length

/-- `np.argmax`: the index of the first occurrence of the maximum value
(0 on the empty list, where numpy would raise). -/
def np_argmax : List ℚ → ℕ
  | [] => 0
  | [_] => 0
  | x :: y :: rest =>
    let j := np_argmax (y :: rest)
    if (y :: rest).getD j 0 > x then j + 1 else 0

/-- `AudioProcessor._detect_beat`, fallback branch (`core/audio.py`):
`is_beat = energy > beat_threshold`; the pitch comes from the rfft peak.
The magnitude spectrum `np.abs(np.fft.rfft(samples))` is an external
library computation, passed in as `spectrum`; `np.fft.rfftfreq` maps
index `k` to `k * sample_rate / N` with `N = len(samples)`, and the
pitch is `freqs[np.argmax(fft)]` guarded by
`fft.sum() > 0 and peak_idx > 0`. -/
def detect_beat_fallback (samples spectrum : List ℚ)
    (sample_rate beat_threshold : ℚ) : Bool × ℚ :=
  let energy := audioVolume samples
  let is_beat := decide (energy > beat_threshold)
  let peak_idx := np_argmax spectrum
  let pitch :=
    if spectrum.sum > 0 ∧ 0 < peak_idx then
      (peak_idx : ℚ) * sample_rate / (samples.length : ℚ)
    else 0
  (is_beat, pitch)

/-- Modelled from the spec reading of the claim, for comparison with the
code: the pitch obtained by "picking the index of maximum magnitude
excluding index 0 (DC)" and mapping it as `index * sampleRateHz / N`,
returning 0 when the spectrum sum is zero (the peak index, being at
least 1, can then never be 0). -/
def pitch_excluding_dc (spectrum : List ℚ) (sample_rate n : ℚ) : ℚ :=
  match spectrum with
  | [] => 0
  | _ :: rest =>
    if spectrum.sum = 0 ∨ rest = [] then 0
    else ((1 + np_argmax rest : ℕ) : ℚ) * sample_rate / n

/-- The frame handler `audio_callback` inside `AudioProcessor.start`
(`core/audio.py`): compute the volume; when `volume < min_volume` return
before the detector is consulted (no beat handling, no dispatch, no state
change); otherwise run the detector and invoke the beat callback exactly
when `is_beat` and `pitch > 0`.  `detect` stands for `self._detect_beat`
(aubio or fallback) and the result is the `(pitch, volume)` handed to the
beat callback, `none` when nothing is dispatched. -/
def audio_callback (detect : List ℚ → Bool × ℚ) (min_volume : ℚ)
    (samples : List ℚ) : Option (ℚ × ℚ) :=
  let volume := audioVolume samples
  if volume < min_volume then none
  else
    let r := detect samples
    if r.1 = true ∧ r.2 > 0 then some (r.2, volume) else none

theorem np_argmax_spec (l : List ℚ) :
    (∀ i, i < l.length → l.getD i 0 ≤ l.getD (np_argmax l) 0) ∧
      ∀ i, i < np_argmax l → l.getD i 0 < l.getD (np_argmax l) 0 := by
  induction l with
  | nil => exact ⟨fun i hi => by simp at hi, fun i hi => by simp [np_argmax] at hi⟩
  | cons x xs ih =>
    cases xs with
    | nil =>
      refine ⟨fun i hi => ?_, fun i hi => ?_⟩
      · have hi0 : i = 0 := by simpa using hi
        subst hi0
        simp [np_argmax]
      · simp [np_argmax] at hi
    | cons y rest =>
      by_cases h : (y :: rest).getD (np_argmax (y :: rest)) 0 > x
      · have hd : np_argmax (x :: y :: rest) = np_argmax (y :: rest) + 1 := by
          simp only [np_argmax]
          rw [if_pos h]
        refine ⟨fun i hi => ?_, fun i hi => ?_⟩
        · rw [hd]
          cases i with
          | zero => simpa using le_of_lt h
          | succ i' =>
            simp only [List.getD_cons_succ]
            exact ih.1 i' (by simpa using hi)
        · rw [hd] at hi ⊢
          cases i with
          | zero => simpa using h
          | succ i' =>
            simp only [List.getD_cons_succ]
            exact ih.2 i' (by omega)
      · have hd : np_argmax (x :: y :: rest) = 0 := by
          simp only [np_argmax]
          rw [if_neg h]
        have hle : (y :: rest).getD (np_argmax (y :: rest)) 0 ≤ x := not_lt.1 h
        refine ⟨fun i hi => ?_, fun i hi => ?_⟩
        · rw [hd]
          cases i with
          | zero => simp
          | succ i' =>
            simp only [List.getD_cons_succ, List.getD_cons_zero]
            exact le_trans (ih.1 i' (by simpa using hi)) hle
        · rw [hd] at hi
          exact absurd hi (Nat.not_lt_zero i)

/-- C5: the audio callback computes the volume as the mean squared
amplitude; a frame with `volume < min_volume` is discarded entirely —
no dispatch, whatever any detector would have said (the result does not
depend on the detector at all) — and dispatch happens exactly when
`is_beat` is true, `pitch > 0` and `volume ≥ min_volume`, handing the
callback that pitch and that volume. -/
theorem silence_gate_spec (detect detect' : List ℚ → Bool × ℚ)
    (min_volume : ℚ) (samples : List ℚ) :
    (audioVolume samples < min_volume →
        audio_callback detect min_volume samples = none ∧
          audio_callback detect min_volume samples =
            audio_callback detect' min_volume samples) ∧
      ∀ p v : ℚ,
        audio_callback detect min_volume samples = some (p, v) ↔
          (detect samples).1 = true ∧ (detect samples).2 > 0 ∧
            ¬ audioVolume samples < min_volume ∧
            p = (detect samples).2 ∧ v = audioVolume samples := by
  constructor
  · intro hv
    constructor <;> simp [audio_callback, hv]
  · intro p v
    by_cases hv : audioVolume samples < min_volume
    · simp [audio_callback, hv]
    · cases hdet : detect samples with
      | mk b pv =>
        simp only [audio_callback, if_neg hv, hdet]
        by_cases hb : b = true ∧ pv > 0
        · rw [if_pos hb]
          simp only [Option.some.injEq, Prod.mk.injEq]
          constructor
          · rintro ⟨hp, hvv⟩
            exact ⟨hb.1, hb.2, hv, hp.symm, hvv.symm⟩
          · rintro ⟨-, -, -, hp, hvv⟩
            exact ⟨hp.symm, hvv.symm⟩
        · rw [if_neg hb]
          constructor
          · intro h
            exact absurd h (by simp)
          · rintro ⟨h1, h2, -, -, -⟩
            exact absurd ⟨h1, h2⟩ hb

/-- Witness for C5: a silent frame is dropped for two different
detectors, and a loud beat frame dispatches. -/
theorem silence_gate_spec_witness :
    audioVolume [0, 0] < 1 / 100 ∧
      audio_callback (fun _ => (true, 440)) (1 / 100) [0, 0] = none ∧
      audio_callback (fun _ => (true, 440)) (1 / 100) [0, 0] =
        audio_callback (fun _ => (false, 0)) (1 / 100) [0, 0] := by
  have hv : audioVolume [0, 0] < 1 / 100 := by
    norm_num [audioVolume]
  have h := (silence_gate_spec (fun _ => (true, 440)) (fun _ => (false, 0))
    (1 / 100) [0, 0]).1 hv
  exact ⟨hv, h.1, h.2⟩

/-- C6 (counterexample): on the frame `[2, 1, 2, 1]` the rfft magnitude
spectrum is `[6, 0, 2]` (DC dominates).  `np.argmax` over the full
spectrum is 0, so the code's guard returns pitch 0; picking the maximum
magnitude *excluding* index 0, as the claim states, gives index 2 and
pitch `2 * 4 / 4 = 2` at sample rate 4 — the two disagree. -/
theorem fallback_pitch_dc_counterexample :
    detect_beat_fallback [2, 1, 2, 1] [6, 0, 2] 4 (1 / 100) = (true, 0) ∧
      pitch_excluding_dc [6, 0, 2] 4 4 = 2 ∧ (0 : ℚ) ≠ 2 := by
  refine ⟨?_, ?_, by norm_num⟩
  · norm_num [detect_beat_fallback, audioVolume, np_argmax]
  · norm_num [pitch_excluding_dc, np_argmax]
    simp

/-- C6 (amended): the fallback detector returns
`isBeat = (volume > beatThreshold)`, and its pitch comes from the index
of maximum magnitude over the *full* spectrum, DC included, with the
first index winning ties: when the spectrum sum is positive and that
peak index is nonzero the pitch is `peak * sampleRate / N` and the peak
really is a maximum (strictly greater than every earlier entry); when
the spectrum sum is zero or the peak index is 0 the pitch is 0 — DC is
excluded only through that guard, not from the argmax. -/
theorem fallback_detect_spec (samples spectrum : List ℚ) (sr θ : ℚ) :
    ((detect_beat_fallback samples spectrum sr θ).1 = true ↔
        audioVolume samples > θ) ∧
      (spectrum.sum > 0 ∧ 0 < np_argmax spectrum →
        (detect_beat_fallback samples spectrum sr θ).2 =
            (np_argmax spectrum : ℚ) * sr / samples.length ∧
          (∀ i, i < spectrum.length →
            spectrum.getD i 0 ≤ spectrum.getD (np_argmax spectrum) 0) ∧
          ∀ i, i < np_argmax spectrum →
            spectrum.getD i 0 < spectrum.getD (np_argmax spectrum) 0) ∧
      (spectrum.sum = 0 ∨ np_argmax spectrum = 0 →
        (detect_beat_fallback samples spectrum sr θ).2 = 0) := by
  refine ⟨by simp [detect_beat_fallback], ?_, ?_⟩
  · intro h
    exact ⟨by simp [detect_beat_fallback, h], (np_argmax_spec spectrum).1,
      (np_argmax_spec spectrum).2⟩
  · intro h
    have hng : ¬ (spectrum.sum > 0 ∧ 0 < np_argmax spectrum) := by
      rcases h with h | h
      · rintro ⟨hc, -⟩
        rw [h] at hc
        exact lt_irrefl 0 hc
      · rintro ⟨-, hc⟩
        rw [h] at hc
        exact lt_irrefl 0 hc
    simp [detect_beat_fallback, hng]

/-- Witness for C6 (amended): spectrum `[1, 5, 3]` whose peak, index 1,
is away from DC, on a two-sample frame at sample rate 8. -/
theorem fallback_detect_spec_witness :
    ([1, 5, 3] : List ℚ).sum > 0 ∧ 0 < np_argmax [1, 5, 3] ∧
      (detect_beat_fallback [1, 1] [1, 5, 3] 8 (1 / 100)).2 =
        (np_argmax [1, 5, 3] : ℚ) * 8 / (([1, 1] : List ℚ).length : ℚ) := by
  have hs : ([1, 5, 3] : List ℚ).sum > 0 := by norm_num
  have ha : 0 < np_argmax [1, 5, 3] := by decide
  exact ⟨hs, ha,
    ((fallback_detect_spec [1, 1] [1, 5, 3] 8 (1 / 100)).2.1 ⟨hs, ha⟩).1⟩

end MusicViz
